import Mathlib

/-! Verification development for the lovepac texture packer.

The repository's `src/packer/run.go` holds the orchestration engine:
`Run` (multi-atlas pack loop), `readAssetStream` and `decode` (the decode
pipeline), `applySensibleDefaults` and the default variables. Those are
embedded here directly. The `packing` package (the rectangle packer, its
`Block` interface and the `ByArea` sort order) and the `sprite`/`atlas`
types are part of the repository but not among the given source files, so
they are modelled from the spec where marked. Concurrency (worker pools,
channels, write goroutines) is modelled sequentially: the decode pipeline
processes the asset stream in arrival order, and dispatched output tasks
are recorded as an ordered event trace. The float64 scale factor is
modelled as an exact rational; Go's `int(float64(w) * scale)` truncation
toward zero is `Int.tdiv` on the exact product. -/

namespace Lovepac

/-- Modelled from the spec: a Sprite Record (§3) — the sized, padded
rectangle the packer places. `w`/`h` are the scaled dimensions, `padding`
comes from the run parameters (`sprite` type of the packer package, not
among the given sources). -/
structure Sprite where
  path : String
  w : Int
  h : Int
  padding : Int
deriving DecidableEq, Repr

/-- Modelled from the spec (§4.1): a placement reserves
`width+padding × height+padding`. -/
def Sprite.packW (s : Sprite) : Int := s.w + s.padding

/-- Modelled from the spec (§4.1): padded height reserved by a placement. -/
def Sprite.packH (s : Sprite) : Int := s.h + s.padding

/-- Modelled from the spec (§4.3 step 2): the bounding-box area the
`packing.ByArea` sort order compares (the box the packer reserves). -/
def Sprite.area (s : Sprite) : Int := s.packW * s.packH

/-- A free sub-region of the canvas (packer state, spec §3). -/
structure Rect where
  x : Int
  y : Int
  w : Int
  h : Int
deriving DecidableEq, Repr

/-- A sprite together with the origin the packer assigned it. -/
structure PlacedSprite where
  spr : Sprite
  x : Int
  y : Int
deriving DecidableEq, Repr

/-- Modelled from the spec (§4.1): the padded bounding box fits a free
region. -/
def fits (r : Rect) (pw ph : Int) : Bool := pw ≤ r.w && ph ≤ r.h

/-- Modelled from the spec (§4.1): best-fit search — the smallest free
region (by area) that fits, ties broken by encounter order. Returns the
index and the region. -/
def bestFitAux (pw ph : Int) : List Rect → Nat → Option (Nat × Rect)
  | [], _ => none
  | r :: rest, i =>
    let restBest := bestFitAux pw ph rest (i + 1)
    if fits r pw ph then
      match restBest with
      | none => some (i, r)
      | some (j, r2) =>
        if r2.w * r2.h < r.w * r.h then some (j, r2) else some (i, r)
    else restBest

/-- Best-fit search over the whole free list, starting at index 0. -/
def bestFit (free : List Rect) (pw ph : Int) : Option (Nat × Rect) :=
  bestFitAux pw ph free 0

/-- Modelled from the spec (§4.1): guillotine split of the chosen free
region into the sub-region to the right of the placed sprite and the one
below it, keeping only the non-empty ones. -/
def splitRegion (r : Rect) (pw ph : Int) : List Rect :=
  let right : Rect := ⟨r.x + pw, r.y, r.w - pw, ph⟩
  let down : Rect := ⟨r.x, r.y + ph, r.w, r.h - ph⟩
  (if 0 < right.w ∧ 0 < right.h then [right] else []) ++
    (if 0 < down.w ∧ 0 < down.h then [down] else [])

/-- Outcome of packing one sprite (spec §4.1): success with an assigned
origin and the updated free list, OutOfRoom, or InputTooLarge. -/
inductive PackOutcome where
  | placed (x y : Int) (free : List Rect)
  | outOfRoom
  | inputTooLarge
deriving Repr

/-- Modelled from the spec: `Pack` of the rectangle packer (§4.1, §8).
InputTooLarge exactly when the unpadded size exceeds the canvas ("A sprite
whose unpadded size exceeds the configured atlas width or height always
yields InputTooLarge"); otherwise OutOfRoom when no free region fits the
padded box (§4.3f: padding alone can make a sprite unplaceable without
triggering InputTooLarge). -/
def packOne (W H : Int) (free : List Rect) (s : Sprite) : PackOutcome :=
  if W < s.w ∨ H < s.h then .inputTooLarge
  else
    match bestFit free s.packW s.packH with
    | none => .outOfRoom
    | some (i, r) =>
      .placed r.x r.y (free.take i ++ splitRegion r s.packW s.packH ++ free.drop (i + 1))

/-- One packing pass: the inner `for _, sprite := range sprites` loop of
`Run` (run.go 159-168). Feeds the sprites in order to one packer; partitions
them into completed and incomplete; any InputTooLarge aborts the pass (and
the run) at once. -/
def packPass (W H : Int) (free : List Rect) : List Sprite → Except Unit (List PlacedSprite × List Sprite)
  | [] => .ok ([], [])
  | s :: rest =>
    match packOne W H free s with
    | .inputTooLarge => .error ()
    | .outOfRoom =>
      match packPass W H free rest with
      | .error e => .error e
      | .ok (c, inc) => .ok (c, s :: inc)
    | .placed x y free2 =>
      match packPass W H free2 rest with
      | .error e => .error e
      | .ok (c, inc) => .ok (⟨s, x, y⟩ :: c, inc)

/-- The `atlas` value `Run` builds per pass (run.go 176-186). -/
structure Atlas where
  name : String
  sprites : List PlacedSprite
  descFilename : String
  imageFilename : String
  width : Int
  height : Int
  scale : Rat
deriving DecidableEq, Repr

/-- Run parameters as `Run` uses them after defaults are applied: the
fields of `Params` (run.go 34-45), with the format reduced to its
extension (`target.Format` is not among the given sources; spec §6 pairs a
format with a file extension and a template, and only the extension
reaches a file name). -/
structure RP where
  name : String
  width : Int
  height : Int
  maxAtlases : Int
  scale : Rat
  combineDescFiles : Bool
  nameFormatter : String → Int → String
  ext : String

/-- The fatal pack-loop errors of `Run` (run.go 151-152, 162, 216). -/
inductive RunErr where
  | inputTooLarge
  | outOfRoom
  | atlasLimit (n : Int)
deriving DecidableEq, Repr

/-- A dispatched output task: `atlas.OutputImage` (combine branch,
run.go 193), `atlas.Output` image+descriptor (run.go 202), or the single
combined-descriptor task with its per-atlas append flags (run.go 224-234). -/
inductive OutEvent where
  | image (a : Atlas)
  | atlasOut (a : Atlas)
  | combinedDesc (items : List (Atlas × Bool))
deriving DecidableEq, Repr

/-- Whether an event is the combined-descriptor task. -/
def OutEvent.isCombined : OutEvent → Bool
  | .combinedDesc _ => true
  | _ => false

/-- Outcome of the pack loop: normal exit, a fatal error, or still looping
when the fuel runs out (the Go loop has no other exit, so exhausting any
fuel bound means the loop is still running). -/
inductive Outcome where
  | ok
  | err (e : RunErr)
  | spin
deriving DecidableEq, Repr

/-- What the pack loop produced: the atlases in creation order, the output
tasks dispatched in order, and how the loop ended. -/
structure LoopRes where
  atlases : List Atlas
  events : List OutEvent
  outcome : Outcome
deriving DecidableEq, Repr

/-- The fresh packer's free space: the whole canvas
(`packing.NewBinPacker(width, height)`, run.go 158). -/
def initialFree (W H : Int) : List Rect := [⟨0, 0, W, H⟩]

/-- The atlas built at index `count1` (run.go 171-186): stems come from the
naming function; the descriptor stem is the base name when descriptors are
combined; the image file is `stem.png`, the descriptor `stem.ext`. -/
def mkAtlas (p : RP) (count1 : Int) (completed : List PlacedSprite) : Atlas :=
  let atlasName := p.nameFormatter p.name count1
  let descName := if p.combineDescFiles then p.name else p.nameFormatter p.name count1
  { name := atlasName
    sprites := completed
    descFilename := descName ++ "." ++ p.ext
    imageFilename := atlasName ++ "." ++ "png"
    width := p.width
    height := p.height
    scale := p.scale }

/-- The output task dispatched for one atlas (run.go 188-207): image-only
when descriptors are combined, image+descriptor otherwise. -/
def mkEvent (p : RP) (a : Atlas) : OutEvent :=
  if p.combineDescFiles then .image a else .atlasOut a

/-- The pack loop of `Run` (run.go 149-220). `total` is the fixed
`totalNumberOfSprites` read before the loop (run.go 142); `count` is
`totalNumberOfAtlases`. Each iteration: fail if the atlas limit is already
reached; pack one pass; create and dispatch the atlas; exit when nothing
was deferred; fail with OutOfRoom when the deferred count equals `total`;
otherwise continue with the deferred sprites. -/
def runLoop (p : RP) (total : Nat) : Nat → List Sprite → Int → LoopRes
  | 0, _, _ => ⟨[], [], .spin⟩
  | fuel + 1, sprites, count =>
    if 0 < p.maxAtlases ∧ count = p.maxAtlases then
      ⟨[], [], .err (.atlasLimit p.maxAtlases)⟩
    else
      match packPass p.width p.height (initialFree p.width p.height) sprites with
      | .error _ => ⟨[], [], .err .inputTooLarge⟩
      | .ok (completed, incomplete) =>
        let atlas := mkAtlas p (count + 1) completed
        let ev := mkEvent p atlas
        if incomplete.length = 0 then ⟨[atlas], [ev], .ok⟩
        else if incomplete.length = total then ⟨[atlas], [ev], .err .outOfRoom⟩
        else
          let rest := runLoop p total fuel incomplete (count + 1)
          ⟨atlas :: rest.atlases, ev :: rest.events, rest.outcome⟩

/-- The canonical sort before packing (run.go 140,
`sort.Sort(packing.ByArea(sprites))`). Modelled from the spec for the
missing `ByArea` order: descending bounding-box area (§4.3 step 2),
realised as a deterministic comparison sort. -/
def sortByArea (l : List Sprite) : List Sprite :=
  l.insertionSort (fun a b => b.area ≤ a.area)

/-- The items the combined-descriptor task processes (run.go 226-233):
the recorded atlases in creation order, each with its append flag `i > 0`,
so the first atlas is written in create mode and the rest in append mode. -/
def combinedItems (atlases : List Atlas) : List (Atlas × Bool) :=
  atlases.enum.map (fun x => (x.2, decide (0 < x.1)))

/-- `Run` after decoding (run.go 140-248): sort, run the pack loop, and —
only when the loop exits normally — dispatch the one combined-descriptor
task if any atlases were recorded for combining. Returns the dispatched
tasks in order and the loop outcome. -/
def run (p : RP) (fuel : Nat) (sprites0 : List Sprite) : List OutEvent × Outcome :=
  let sorted := sortByArea sprites0
  let res := runLoop p sorted.length fuel sorted 0
  match res.outcome with
  | .ok =>
    if p.combineDescFiles ∧ 0 < res.atlases.length then
      (res.events ++ [.combinedDesc (combinedItems res.atlases)], .ok)
    else (res.events, .ok)
  | oc => (res.events, oc)

/-- Decidable equality for `Except`, so that concrete decode results can be
compared by evaluation. -/
instance {ε α : Type} [DecidableEq ε] [DecidableEq α] : DecidableEq (Except ε α) := fun a b =>
  match a, b with
  | .ok x, .ok y =>
    if h : x = y then .isTrue (congrArg Except.ok h)
    else .isFalse (fun hh => h (Except.ok.inj hh))
  | .error x, .error y =>
    if h : x = y then .isTrue (congrArg Except.error h)
    else .isFalse (fun hh => h (Except.error.inj hh))
  | .ok _, .error _ => .isFalse (fun hh => Except.noConfusion hh)
  | .error _, .ok _ => .isFalse (fun hh => Except.noConfusion hh)

/-- The pixel dimensions `image.DecodeConfig` reads from an asset's header
(run.go 313). -/
structure ImageConfig where
  width : Int
  height : Int
deriving DecidableEq, Repr

/-- What an asset's byte stream yields: either its parsed header or the
metadata error `image.DecodeConfig` reports. -/
structure ImageData where
  config : Except String ImageConfig
deriving DecidableEq, Repr

/-- Modelled from the spec (§6 Asset Source, §3 Asset): an external handle
with an identifier and a way to obtain a byte stream, which can fail on
open (`asset.Reader()`, run.go 306). -/
structure Asset where
  path : String
  reader : Except String ImageData
deriving DecidableEq, Repr

/-- Go's `int(float64(d) * scale)` (run.go 322-323) on an exact rational
scale: the product `d * scale` truncated toward zero. -/
def scaleApply (scale : Rat) (d : Int) : Int :=
  (d * scale.num).tdiv (scale.den : Int)

/-- Decoding one asset (the body of `decode`'s loop, run.go 304-327): a
read failure or a metadata failure is reported as an error tagged with the
asset's path; otherwise the sprite record is built with the scaled
dimensions and the run's padding, with no further validation. -/
def decodeAsset (padding : Int) (scale : Rat) (a : Asset) : Except String Sprite :=
  match a.reader with
  | .error e => .error ("Failed to read asset '" ++ a.path ++ "': " ++ e)
  | .ok img =>
    match img.config with
    | .error e => .error ("Failed to read asset metadata '" ++ a.path ++ "': " ++ e)
    | .ok cfg =>
      .ok { path := a.path
            w := scaleApply scale cfg.width
            h := scaleApply scale cfg.height
            padding := padding }

/-- Whether a decode result is a success. -/
def decodeOk : Except String Sprite → Bool
  | .ok _ => true
  | .error _ => false

/-- The decode pipeline's results in arrival order (run.go 296-329): every
asset of the stream is decoded — a worker publishes an error for a failed
asset and continues with the next one. The five concurrent workers are
modelled as one sequential pass over the stream in arrival order. -/
def decodeList (padding : Int) (scale : Rat) (assets : List Asset) : List (Except String Sprite) :=
  assets.map (decodeAsset padding scale)

/-- Draining the result channel (run.go 279-284): results are collected in
order until the first error, which is returned as the pipeline's result. -/
def collectResults : List (Except String Sprite) → Except String (List Sprite)
  | [] => .ok []
  | .error e :: _ => .error e
  | .ok s :: rest =>
    match collectResults rest with
    | .error e => .error e
    | .ok l => .ok (s :: l)

/-- `readAssetStream` (run.go 256-291): decode every asset, return the
first decode error if any, otherwise report the asset stream's terminal
error, otherwise the full sprite list. -/
def readAssetStream (padding : Int) (scale : Rat) (assets : List Asset)
    (streamErr : Option String) : Except String (List Sprite) :=
  match collectResults (decodeList padding scale assets) with
  | .error e => .error e
  | .ok sprites =>
    match streamErr with
    | some e => .error e
    | none => .ok sprites

/-- The observable result of a whole run: a decode-stage failure, or the
dispatched output tasks and the pack loop's outcome. -/
inductive RunResult where
  | decodeFailed (e : String)
  | packed (events : List OutEvent) (oc : Outcome)
deriving DecidableEq, Repr

/-- `Run` end to end (run.go 114-249, after parameter validation): read and
decode the asset stream, then sort and pack. -/
def RunFull (p : RP) (padding : Int) (fuel : Nat) (assets : List Asset)
    (streamErr : Option String) : RunResult :=
  match readAssetStream padding p.scale assets streamErr with
  | .error e => .decodeFailed e
  | .ok sprites =>
    let r := run p fuel sprites
    .packed r.1 r.2

/-- Default base name for outputted files (run.go 20). -/
def DefaultAtlasName : String := "atlas"

/-- Default atlas width (run.go 22). -/
def DefaultAtlasWidth : Int := 2048

/-- Default atlas height (run.go 24). -/
def DefaultAtlasHeight : Int := 2048

/-- `DefaultNameFormatter` (run.go 26-28): the stem `name-index`. -/
def DefaultNameFormatter : String → Int → String :=
  fun name index => name ++ "-" ++ toString index

/-- `Params` (run.go 34-45), the format reduced to its extension; an unset
`NameFormatter` is `none` (nil). -/
structure Params where
  name : String
  width : Int
  height : Int
  padding : Int
  maxAtlases : Int
  scale : Rat
  combineDescFiles : Bool
  nameFormatter : Option (String → Int → String)
  ext : String

/-- `applySensibleDefaults` (run.go 49-65): fill each zero-valued optional
field with its default; `MaxAtlases` is not touched (0 already means no
limit). -/
def applySensibleDefaults (p : Params) : Params :=
  { p with
    name := if p.name = "" then DefaultAtlasName else p.name
    width := if p.width = 0 then DefaultAtlasWidth else p.width
    height := if p.height = 0 then DefaultAtlasHeight else p.height
    scale := if p.scale = 0 then 1 else p.scale
    nameFormatter :=
      match p.nameFormatter with
      | none => some DefaultNameFormatter
      | some f => some f }

/-- The parameters as the pack loop consumes them (`Run` applies defaults
before the loop, run.go 132). -/
def Params.toRP (p : Params) : RP :=
  { name := p.name
    width := p.width
    height := p.height
    maxAtlases := p.maxAtlases
    scale := p.scale
    combineDescFiles := p.combineDescFiles
    nameFormatter := p.nameFormatter.getD DefaultNameFormatter
    ext := p.ext }

/-- `Run` on raw parameters: defaults are applied once at run start, then
the packing proceeds (run.go 132-140). -/
def RunParams (p : Params) (fuel : Nat) (sprites0 : List Sprite) : List OutEvent × Outcome :=
  run (applySensibleDefaults p).toRP fuel sprites0

/-! ### Concrete fixtures for witnesses and counterexamples -/

/-- A 10×10 run with no atlas limit and the default naming. -/
def p10 : RP := ⟨"atlas", 10, 10, 0, 1, false, DefaultNameFormatter, "lua"⟩

/-- A 4×4 run with no atlas limit. -/
def p4 : RP := ⟨"atlas", 4, 4, 0, 1, false, DefaultNameFormatter, "lua"⟩

/-- A 4×4 run with descriptor combining enabled. -/
def p4c : RP := ⟨"atlas", 4, 4, 0, 1, true, DefaultNameFormatter, "lua"⟩

/-- A small sprite that fits the 10×10 canvas with its padding. -/
def sA1 : Sprite := ⟨"a", 2, 2, 3⟩

/-- A sprite whose unpadded box fits the 10×10 canvas but whose padded box
(12×12) never fits it: OutOfRoom on every pass, never InputTooLarge. -/
def sB1 : Sprite := ⟨"b", 9, 9, 3⟩

/-! ### Helper lemmas -/

/-- Changing only the atlas limit leaves the canvas width unchanged. -/
@[simp] theorem RP.withMax_width (p : RP) (N : Int) :
    ({ p with maxAtlases := N } : RP).width = p.width := rfl

/-- Changing only the atlas limit leaves the canvas height unchanged. -/
@[simp] theorem RP.withMax_height (p : RP) (N : Int) :
    ({ p with maxAtlases := N } : RP).height = p.height := rfl

/-- Changing only the atlas limit leaves the base name unchanged. -/
@[simp] theorem RP.withMax_name (p : RP) (N : Int) :
    ({ p with maxAtlases := N } : RP).name = p.name := rfl

/-- Changing only the atlas limit leaves the scale unchanged. -/
@[simp] theorem RP.withMax_scale (p : RP) (N : Int) :
    ({ p with maxAtlases := N } : RP).scale = p.scale := rfl

/-- Changing only the atlas limit leaves the combine flag unchanged. -/
@[simp] theorem RP.withMax_combine (p : RP) (N : Int) :
    ({ p with maxAtlases := N } : RP).combineDescFiles = p.combineDescFiles := rfl

/-- Changing only the atlas limit leaves the naming function unchanged. -/
@[simp] theorem RP.withMax_fmt (p : RP) (N : Int) :
    ({ p with maxAtlases := N } : RP).nameFormatter = p.nameFormatter := rfl

/-- Changing only the atlas limit leaves the extension unchanged. -/
@[simp] theorem RP.withMax_ext (p : RP) (N : Int) :
    ({ p with maxAtlases := N } : RP).ext = p.ext := rfl

/-- The updated atlas limit. -/
@[simp] theorem RP.withMax_max (p : RP) (N : Int) :
    ({ p with maxAtlases := N } : RP).maxAtlases = N := rfl

/-- Updating the atlas limit commutes with `mkAtlas`. -/
@[simp] theorem mkAtlas_withMax (p : RP) (N : Int) (c : Int) (l : List PlacedSprite) :
    mkAtlas { p with maxAtlases := N } c l = mkAtlas p c l := rfl

/-- Updating the atlas limit commutes with `mkEvent`. -/
@[simp] theorem mkEvent_withMax (p : RP) (N : Int) (a : Atlas) :
    mkEvent { p with maxAtlases := N } a = mkEvent p a := rfl

/-- A packing pass partitions its input: placed plus deferred counts equal
the pass's sprite count. -/
theorem packPass_length {W H : Int} : ∀ {free : List Rect} {l : List Sprite}
    {c : List PlacedSprite} {inc : List Sprite},
    packPass W H free l = .ok (c, inc) → c.length + inc.length = l.length := by
  intro free l
  induction l generalizing free with
  | nil =>
    intro c inc h
    simp only [packPass] at h
    cases h
    rfl
  | cons s rest ih =>
    intro c inc h
    simp only [packPass] at h
    split at h
    · cases h
    · split at h
      · cases h
      · cases h
        rename_i hr
        simp only [List.length_cons]
        have := ih hr
        omega
    · split at h
      · cases h
      · cases h
        rename_i hr
        simp only [List.length_cons]
        have := ih hr
        omega

/-- A packing pass aborts with the InputTooLarge error whenever some sprite
of the pass exceeds the canvas dimensions. -/
theorem packPass_error_of_mem {W H : Int} : ∀ {l : List Sprite} (free : List Rect),
    (∃ s ∈ l, W < s.w ∨ H < s.h) → packPass W H free l = .error () := by
  intro l
  induction l with
  | nil =>
    intro free h
    obtain ⟨s, hs, _⟩ := h
    cases hs
  | cons s rest ih =>
    intro free h
    obtain ⟨s0, hs0, hbig⟩ := h
    simp only [packPass]
    rcases List.mem_cons.mp hs0 with heq | hmem
    · subst heq
      have : packOne W H free s0 = .inputTooLarge := by
        simp only [packOne, if_pos hbig]
      rw [this]
    · split
      · rfl
      · split
        · rfl
        · rename_i hr
          rw [ih _ ⟨s0, hmem, hbig⟩] at hr
          cases hr
      · split
        · rfl
        · rename_i hr
          rw [ih _ ⟨s0, hmem, hbig⟩] at hr
          cases hr

/-- The dispatched events of the pack loop are exactly the per-atlas output
tasks of its atlases, in creation order. -/
theorem runLoop_events (p : RP) (total : Nat) : ∀ (fuel : Nat) (sprites : List Sprite) (count : Int),
    (runLoop p total fuel sprites count).events =
      (runLoop p total fuel sprites count).atlases.map (mkEvent p) := by
  intro fuel
  induction fuel with
  | zero => intro sprites count; simp [runLoop]
  | succ f ih =>
    intro sprites count
    simp only [runLoop]
    split
    · simp
    · split
      · simp
      · split
        · simp
        · split
          · simp
          · simp [ih]

/-- A pack loop that exits normally produced at least one atlas. -/
theorem runLoop_ok_pos (p : RP) (total : Nat) (fuel : Nat) (sprites : List Sprite) (count : Int) :
    (runLoop p total fuel sprites count).outcome = .ok →
    0 < (runLoop p total fuel sprites count).atlases.length := by
  cases fuel with
  | zero => intro h; simp [runLoop] at h
  | succ f =>
    simp only [runLoop]
    split
    · intro h; simp at h
    · split
      · intro h; simp at h
      · split
        · intro _; simp
        · split
          · intro h; simp at h
          · intro _; simp

/-- With no positive atlas limit configured, the pack loop never fails with
the atlas-limit error. -/
theorem runLoop_no_limit (p : RP) (total : Nat) (h : ¬ 0 < p.maxAtlases) :
    ∀ (fuel : Nat) (sprites : List Sprite) (count : Int) (n : Int),
    (runLoop p total fuel sprites count).outcome ≠ .err (.atlasLimit n) := by
  intro fuel
  induction fuel with
  | zero => intro sprites count n; simp [runLoop]
  | succ f ih =>
    intro sprites count n
    simp only [runLoop]
    split
    · rename_i hcond
      exact absurd hcond.1 h
    · split
      · simp
      · split
        · simp
        · split
          · simp
          · simpa using ih _ _ n

/-- When the unlimited pack loop exits normally within the limit, imposing
the limit changes nothing: the limited loop produces the same atlases,
events and outcome. -/
theorem runLoop_limited_eq (p : RP) (N : Int) (total : Nat) :
    ∀ (fuel : Nat) (sprites : List Sprite) (count : Int),
    (runLoop { p with maxAtlases := 0 } total fuel sprites count).outcome = .ok →
    count + ((runLoop { p with maxAtlases := 0 } total fuel sprites count).atlases.length : Int) ≤ N →
    runLoop { p with maxAtlases := N } total fuel sprites count =
      runLoop { p with maxAtlases := 0 } total fuel sprites count := by
  intro fuel
  induction fuel with
  | zero =>
    intro sprites count hok _
    simp [runLoop] at hok
  | succ f ih =>
    intro sprites count hok hle
    have hpos := runLoop_ok_pos _ _ _ _ _ hok
    have hcount : count < N := by omega
    have hcondN : ¬ (0 < N ∧ count = N) := by
      intro hc
      omega
    have hcond0 : ¬ ((0 : Int) < 0 ∧ count = (0 : Int)) := by
      intro hc
      exact absurd hc.1 (lt_irrefl 0)
    simp only [runLoop, if_neg hcondN, if_neg hcond0] at hok hle ⊢
    cases hpk : packPass p.width p.height (initialFree p.width p.height) sprites with
    | error e =>
      exfalso
      simp only [hpk] at hok
      exact absurd hok (by simp)
    | ok pr =>
      obtain ⟨completed, incomplete⟩ := pr
      simp only [hpk] at hok hle ⊢
      by_cases h0 : incomplete.length = 0
      · simp only [if_pos h0, mkAtlas_withMax, mkEvent_withMax]
      · by_cases ht : incomplete.length = total
        · exfalso
          simp only [if_neg h0, if_pos ht] at hok
          exact absurd hok (by simp)
        · simp only [if_neg h0, if_neg ht] at hok hle ⊢
          have hok2 : (runLoop { p with maxAtlases := 0 } total f incomplete (count + 1)).outcome = .ok := by
            simpa using hok
          have hle2 : (count + 1) +
              ((runLoop { p with maxAtlases := 0 } total f incomplete (count + 1)).atlases.length : Int) ≤ N := by
            simp only [List.length_cons] at hle
            push_cast at hle ⊢
            omega
          rw [ih incomplete (count + 1) hok2 hle2]
          simp only [mkAtlas_withMax, mkEvent_withMax]

/-- When the unlimited pack loop exits normally but needs more than `N`
atlases, the loop limited to `N` dispatches exactly the first `N` atlases
and then fails with the atlas-limit error. -/
theorem runLoop_limited_take (p : RP) (N : Int) (total : Nat) (hN : 0 < N) :
    ∀ (fuel : Nat) (sprites : List Sprite) (count : Int),
    (runLoop { p with maxAtlases := 0 } total fuel sprites count).outcome = .ok →
    count ≤ N →
    N < count + ((runLoop { p with maxAtlases := 0 } total fuel sprites count).atlases.length : Int) →
    runLoop { p with maxAtlases := N } total fuel sprites count =
      ⟨(runLoop { p with maxAtlases := 0 } total fuel sprites count).atlases.take (N - count).toNat,
       (runLoop { p with maxAtlases := 0 } total fuel sprites count).events.take (N - count).toNat,
       .err (.atlasLimit N)⟩ := by
  intro fuel
  induction fuel with
  | zero =>
    intro sprites count hok _ _
    simp [runLoop] at hok
  | succ f ih =>
    intro sprites count hok hcle hgt
    by_cases hc : count = N
    · have htake : (N - count).toNat = 0 := by omega
      have hcondN : (0 < N ∧ count = N) := ⟨hN, hc⟩
      simp only [runLoop, RP.withMax_max, if_pos hcondN, htake, List.take_zero]
    · have hcount : count < N := by omega
      have hcondN : ¬ (0 < N ∧ count = N) := by
        intro h2
        exact hc h2.2
      have hcond0 : ¬ ((0 : Int) < 0 ∧ count = (0 : Int)) := by
        intro h2
        exact absurd h2.1 (lt_irrefl 0)
      simp only [runLoop, if_neg hcondN, if_neg hcond0] at hok hgt ⊢
      cases hpk : packPass p.width p.height (initialFree p.width p.height) sprites with
      | error e =>
        exfalso
        simp only [hpk] at hok
        exact absurd hok (by simp)
      | ok pr =>
        obtain ⟨completed, incomplete⟩ := pr
        simp only [hpk] at hok hgt ⊢
        by_cases h0 : incomplete.length = 0
        · exfalso
          simp only [if_pos h0] at hgt
          simp only [LoopRes.atlases, List.length_cons, List.length_nil] at hgt
          push_cast at hgt
          omega
        · by_cases ht : incomplete.length = total
          · exfalso
            simp only [if_neg h0, if_pos ht] at hok
            exact absurd hok (by simp)
          · simp only [if_neg h0, if_neg ht] at hok hgt ⊢
            have hok2 : (runLoop { p with maxAtlases := 0 } total f incomplete (count + 1)).outcome = .ok := by
              simpa using hok
            have hgt2 : N < (count + 1) +
                ((runLoop { p with maxAtlases := 0 } total f incomplete (count + 1)).atlases.length : Int) := by
              simp only [List.length_cons] at hgt
              push_cast at hgt ⊢
              omega
            rw [ih incomplete (count + 1) hok2 (by omega) hgt2]
            have hsucc : (N - count).toNat = (N - (count + 1)).toNat + 1 := by omega
            simp only [hsucc, List.take_succ_cons, mkAtlas_withMax, mkEvent_withMax]

/-- A pack loop that fails with the global OutOfRoom error dispatched, as
its final output task, an atlas with an empty sprite list (the failing
pass placed nothing). Needs the invariant that the pass's sprite count is
at most the fixed pre-loop total. -/
theorem runLoop_outOfRoom_last (p : RP) (total : Nat) :
    ∀ (fuel : Nat) (sprites : List Sprite) (count : Int),
    sprites.length ≤ total →
    (runLoop p total fuel sprites count).outcome = .err .outOfRoom →
    ∃ evs a, (runLoop p total fuel sprites count).events = evs ++ [mkEvent p a] ∧
      a.sprites = [] := by
  intro fuel
  induction fuel with
  | zero =>
    intro sprites count _ h
    simp [runLoop] at h
  | succ f ih =>
    intro sprites count hlen
    simp only [runLoop]
    split
    · intro h
      simp at h
    · split
      · intro h
        simp at h
      · split
        · intro h
          simp at h
        · rename_i completed incomplete hpk h0
          split
          · rename_i ht
            intro _
            refine ⟨[], mkAtlas p (count + 1) completed, by simp, ?_⟩
            have hplen := packPass_length hpk
            have hcomp : completed.length = 0 := by omega
            have : completed = [] := List.length_eq_zero.mp hcomp
            simp [mkAtlas, this]
          · rename_i ht
            intro h
            have hok2 : (runLoop p total f incomplete (count + 1)).outcome = .err .outOfRoom := by
              simpa using h
            have hlen2 : incomplete.length ≤ total := by
              have := packPass_length hpk
              omega
            obtain ⟨evs, a, hev, ha⟩ := ih incomplete (count + 1) hlen2 hok2
            refine ⟨mkEvent p (mkAtlas p (count + 1) completed) :: evs, a, ?_, ha⟩
            simp [hev]

/-- On a sprite list whose areas are pairwise distinct, the canonical sort
is strictly decreasing in area. -/
theorem sortByArea_strict (l : List Sprite) (hl : (l.map Sprite.area).Nodup) :
    (sortByArea l).Pairwise (fun a b => b.area < a.area) := by
  have hs : (sortByArea l).Pairwise (fun a b : Sprite => b.area ≤ a.area) := by
    haveI : IsTotal Sprite (fun a b : Sprite => b.area ≤ a.area) :=
      ⟨fun a b => le_total b.area a.area⟩
    haveI : IsTrans Sprite (fun a b : Sprite => b.area ≤ a.area) :=
      ⟨fun _ _ _ hab hbc => le_trans hbc hab⟩
    exact List.sorted_insertionSort _ l
  have hperm2 : List.Perm (sortByArea l) l := List.perm_insertionSort _ l
  have hnd2 : ((sortByArea l).map Sprite.area).Nodup :=
    ((hperm2.map _).nodup_iff).mpr hl
  have hne : (sortByArea l).Pairwise (fun a b => Sprite.area a ≠ Sprite.area b) :=
    (List.pairwise_map).mp hnd2
  exact (hs.and hne).imp (fun h => lt_of_le_of_ne h.1 (fun he => h.2 he.symm))

/-- The canonical sort depends only on the multiset of sprites when their
areas are pairwise distinct: any two arrival orders sort to the same list. -/
theorem sortByArea_eq_of_perm {l1 l2 : List Sprite}
    (hperm : l1.Perm l2) (hnd : (l1.map Sprite.area).Nodup) :
    sortByArea l1 = sortByArea l2 := by
  haveI : IsAntisymm Sprite (fun a b => b.area < a.area) :=
    ⟨fun _ _ ha hb => absurd hb (lt_asymm ha)⟩
  have h1 := sortByArea_strict l1 hnd
  have h2 := sortByArea_strict l2 (((hperm.map _).nodup_iff).mp hnd)
  exact List.eq_of_perm_of_sorted
    ((List.perm_insertionSort _ l1).trans (hperm.trans (List.perm_insertionSort _ l2).symm))
    h1 h2

/-- The run's reported outcome is the pack loop's outcome. -/
theorem run_snd (p : RP) (fuel : Nat) (s0 : List Sprite) :
    (run p fuel s0).2 = (runLoop p (sortByArea s0).length fuel (sortByArea s0) 0).outcome := by
  simp only [run]
  split
  · rename_i h
    split <;> simp [h]
  · rename_i oc h
    simp [h]

/-- Appending the literal dot and extension. -/
@[simp] theorem dot_png : ("." ++ "png" : String) = ".png" := rfl

/-- The name field of a built atlas. -/
@[simp] theorem mkAtlas_name (p : RP) (c : Int) (l : List PlacedSprite) :
    (mkAtlas p c l).name = p.nameFormatter p.name c := rfl

/-- The sprite list of a built atlas. -/
@[simp] theorem mkAtlas_sprites (p : RP) (c : Int) (l : List PlacedSprite) :
    (mkAtlas p c l).sprites = l := rfl

/-- The image file name of a built atlas. -/
@[simp] theorem mkAtlas_image (p : RP) (c : Int) (l : List PlacedSprite) :
    (mkAtlas p c l).imageFilename = p.nameFormatter p.name c ++ "." ++ "png" := rfl

/-- The descriptor file name of a built atlas. -/
@[simp] theorem mkAtlas_desc (p : RP) (c : Int) (l : List PlacedSprite) :
    (mkAtlas p c l).descFilename =
      (if p.combineDescFiles then p.name else p.nameFormatter p.name c) ++ "." ++ p.ext := rfl

/-- Appending the dot and the extension in two steps or one is the same
string. -/
theorem append_dot (s t : String) : s ++ "." ++ t = s ++ ("." ++ t) :=
  String.append_assoc s "." t

/-- The combined-descriptor task processes exactly the recorded atlases, in
creation order. -/
theorem combinedItems_fst (l : List Atlas) : (combinedItems l).map Prod.fst = l := by
  simp only [combinedItems, List.map_map]
  have : (Prod.fst ∘ fun x : Nat × Atlas => (x.2, decide (0 < x.1))) = Prod.snd := by
    funext x
    rfl
  rw [this, List.enum_map_snd]

/-- The combined-descriptor task writes the first atlas in create mode
(`false`) and every later one in append mode (`true`): flag `i > 0` at
position `i`. -/
theorem combinedItems_snd (l : List Atlas) :
    (combinedItems l).map Prod.snd = (List.range l.length).map (fun i => decide (0 < i)) := by
  simp only [combinedItems, List.map_map]
  rw [← List.enum_map_fst l, List.map_map]
  rfl

/-- On the sprite `sB1` alone, every iteration of the 10×10 loop with total
2 defers the sprite again and recurses: the loop never exits. -/
theorem p10_loop_spins : ∀ (f : Nat) (c : Int),
    (runLoop p10 2 f [sB1] c).outcome = .spin := by
  intro f
  induction f with
  | zero => intro c; simp [runLoop]
  | succ g ih =>
    intro c
    have hcond : ¬ (0 < p10.maxAtlases ∧ c = p10.maxAtlases) := by
      intro hc
      exact absurd hc.1 (by decide)
    have hpk : packPass p10.width p10.height (initialFree p10.width p10.height) [sB1]
        = .ok ([], [sB1]) := by decide
    have h1 : ¬ (([sB1] : List Sprite).length = 0) := by decide
    have h2 : ¬ (([sB1] : List Sprite).length = 2) := by decide
    simp only [runLoop, if_neg hcond, hpk, if_neg h1, if_neg h2]
    exact ih (c + 1)

/-! ### Claim theorems -/

/-- C1: the claim says a pass that places zero sprites always fails the run
with OutOfRoom, on every pass. The code compares the deferred count against
the fixed pre-loop total (run.go 142, 215), so a zero-progress pass after
the first is not detected. At this input — sprite `sA1` is placed in pass 1
while `sB1` (unpadded 9×9 fits 10×10, padded 12×12 never fits) is deferred —
every later pass places nothing, and the run never terminates: for every
fuel bound the loop is still spinning, so it never returns OutOfRoom. -/
theorem run_zero_progress_not_detected : ∀ fuel : Nat,
    (run p10 fuel [sA1, sB1]).2 = .spin := by
  intro fuel
  rw [run_snd]
  have hs : sortByArea [sA1, sB1] = [sB1, sA1] := by decide
  rw [hs]
  show (runLoop p10 2 fuel [sB1, sA1] 0).outcome = .spin
  cases fuel with
  | zero => simp [runLoop]
  | succ g =>
    have hcond : ¬ (0 < p10.maxAtlases ∧ (0 : Int) = p10.maxAtlases) := by
      intro hc
      exact absurd hc.1 (by decide)
    have hpk : packPass p10.width p10.height (initialFree p10.width p10.height) [sB1, sA1]
        = .ok ([⟨sA1, 0, 0⟩], [sB1]) := by decide
    have h1 : ¬ (([sB1] : List Sprite).length = 0) := by decide
    have h2 : ¬ (([sB1] : List Sprite).length = 2) := by decide
    simp only [runLoop, if_neg hcond, hpk, if_neg h1, if_neg h2]
    exact p10_loop_spins g 1

/-- C5: whenever some sprite of the run exceeds the canvas dimensions (the
packer's InputTooLarge condition), the run aborts at once with that error:
no atlas is created, nothing is dispatched, nothing is deferred — the
run's result is the InputTooLarge error with an empty task trace. -/
theorem run_inputTooLarge_aborts (p : RP) (fuel : Nat) (sprites0 : List Sprite)
    (h : ∃ s ∈ sprites0, p.width < s.w ∨ p.height < s.h) :
    run p (fuel + 1) sprites0 = ([], .err .inputTooLarge) := by
  have hmem : ∃ s ∈ sortByArea sprites0, p.width < s.w ∨ p.height < s.h := by
    obtain ⟨s, hs, hbig⟩ := h
    exact ⟨s, (List.mem_insertionSort _).mpr hs, hbig⟩
  have hpk := packPass_error_of_mem (initialFree p.width p.height) hmem
  have hcond : ¬ (0 < p.maxAtlases ∧ (0 : Int) = p.maxAtlases) := by
    intro hc
    omega
  simp only [run, runLoop, if_neg hcond, hpk]

/-- C5 witness: a 20×5 sprite on a 10×10 canvas aborts the run with
InputTooLarge even though another sprite would fit. -/
theorem run_inputTooLarge_aborts_witness :
    run p10 3 [⟨"ok", 2, 2, 0⟩, ⟨"big", 20, 5, 0⟩] = ([], .err .inputTooLarge) :=
  run_inputTooLarge_aborts p10 2 [⟨"ok", 2, 2, 0⟩, ⟨"big", 20, 5, 0⟩]
    ⟨⟨"big", 20, 5, 0⟩, by decide, by decide⟩

/-- C10: a run that fails with the global OutOfRoom error has already
dispatched the output task for the failing pass's atlas, whose sprite list
is empty — the atlas index is incremented and the task dispatched before
the zero-progress check, so the empty atlas's task is the last one in the
trace. -/
theorem outOfRoom_dispatches_empty_atlas (p : RP) (fuel : Nat) (sprites0 : List Sprite)
    (h : (run p fuel sprites0).2 = .err .outOfRoom) :
    ∃ evs a, (run p fuel sprites0).1 = evs ++ [mkEvent p a] ∧ a.sprites = [] := by
  have hout : (runLoop p (sortByArea sprites0).length fuel (sortByArea sprites0) 0).outcome
      = .err .outOfRoom := by
    rw [run_snd] at h
    exact h
  obtain ⟨evs, a, hev, ha⟩ :=
    runLoop_outOfRoom_last p _ fuel (sortByArea sprites0) 0 (le_refl _) hout
  refine ⟨evs, a, ?_, ha⟩
  simp only [run]
  split
  · rename_i hoc
    rw [hoc] at hout
    cases hout
  · rename_i oc hoc
    simpa using hev

/-- C10 witness: a single sprite whose padded box exceeds the canvas makes
pass 1 place nothing, the run fails with OutOfRoom, and the one dispatched
task is for an atlas with an empty sprite list. -/
theorem outOfRoom_dispatches_empty_atlas_witness :
    (run p10 3 [sB1]).2 = .err .outOfRoom ∧
    ∃ evs a, (run p10 3 [sB1]).1 = evs ++ [mkEvent p10 a] ∧ a.sprites = [] :=
  ⟨by decide, outOfRoom_dispatches_empty_atlas p10 3 [sB1] (by decide)⟩

/-- C3 counterexample: the claim says a scaled dimension of 0 (or a scale
≤ 0) is a decode error. The code applies the scale with no validation
(run.go 319-327): a 1×1 image at scale 1/2 decodes successfully to a 0×0
sprite, and a 3×4 image at scale −1 decodes successfully to a −3×−4
sprite — no error is reported in either case. -/
theorem decode_accepts_zero_dims_cex :
    decodeAsset 0 (mkRat 1 2) ⟨"img", .ok ⟨.ok ⟨1, 1⟩⟩⟩ = .ok ⟨"img", 0, 0, 0⟩ ∧
    decodeAsset 0 (mkRat (-1) 1) ⟨"img2", .ok ⟨.ok ⟨3, 4⟩⟩⟩ = .ok ⟨"img2", -3, -4, 0⟩ := by
  decide

/-- C3 amended: decoding performs no dimension validation at all. For every
asset whose read and metadata succeed — whatever the scale factor, zero,
negative or fractional — the decode succeeds and the sprite record carries
exactly the truncated scaled dimensions; a decode error arises only from a
read or metadata failure. -/
theorem decode_no_dimension_validation (padding : Int) (scale : Rat) (a : Asset)
    (img : ImageData) (cfg : ImageConfig)
    (h1 : a.reader = .ok img) (h2 : img.config = .ok cfg) :
    decodeAsset padding scale a =
      .ok ⟨a.path, scaleApply scale cfg.width, scaleApply scale cfg.height, padding⟩ := by
  simp [decodeAsset, h1, h2]

/-- C3 amended witness: a 5×7 image at scale 1/2 decodes to a 2×3 sprite
(truncation), with no error. -/
theorem decode_no_dimension_validation_witness :
    decodeAsset 2 (mkRat 1 2) ⟨"w", .ok ⟨.ok ⟨5, 7⟩⟩⟩ = .ok ⟨"w", 2, 3, 2⟩ := by
  have h := decode_no_dimension_validation 2 (mkRat 1 2) ⟨"w", .ok ⟨.ok ⟨5, 7⟩⟩⟩
    ⟨.ok ⟨5, 7⟩⟩ ⟨5, 7⟩ rfl rfl
  rw [h]
  decide

/-- C6: the decode pipeline (a) returns the full sprite list, one sprite
per asset in order, when every decode succeeds and the stream ends cleanly;
(b) returns the first decode error it observes when some asset fails, even
with later assets present; (c) every decode error message carries the
failing asset's identifier; and (d, e) the workers decode every asset of
the stream — processing is elementwise, so assets after a failed one are
still decoded. -/
theorem decode_pipeline_first_error (pad : Int) (sc : Rat) :
    (∀ assets : List Asset, (∀ a ∈ assets, decodeOk (decodeAsset pad sc a) = true) →
      ∃ sprites, readAssetStream pad sc assets none = .ok sprites ∧
        List.Forall₂ (fun a s => decodeAsset pad sc a = .ok s) assets sprites) ∧
    (∀ (pre : List Asset) (bad : Asset) (post : List Asset) (e : String) (se : Option String),
      (∀ a ∈ pre, decodeOk (decodeAsset pad sc a) = true) →
      decodeAsset pad sc bad = .error e →
      readAssetStream pad sc (pre ++ bad :: post) se = .error e) ∧
    (∀ (a : Asset) (e : String), decodeAsset pad sc a = .error e →
      ∃ m, e = "Failed to read asset '" ++ a.path ++ "': " ++ m ∨
        e = "Failed to read asset metadata '" ++ a.path ++ "': " ++ m) ∧
    (∀ xs ys : List Asset, decodeList pad sc (xs ++ ys) =
      decodeList pad sc xs ++ decodeList pad sc ys) ∧
    (∀ assets : List Asset, (decodeList pad sc assets).length = assets.length) := by
  refine ⟨?full, ?firstErr, ?tagged, ?append, ?length⟩
  case full =>
    intro assets hall
    have : ∀ assets : List Asset, (∀ a ∈ assets, decodeOk (decodeAsset pad sc a) = true) →
        ∃ sprites, collectResults (decodeList pad sc assets) = .ok sprites ∧
          List.Forall₂ (fun a s => decodeAsset pad sc a = .ok s) assets sprites := by
      intro assets
      induction assets with
      | nil => intro _; exact ⟨[], rfl, List.Forall₂.nil⟩
      | cons a rest ih =>
        intro hall
        have ha := hall a (List.mem_cons_self a rest)
        obtain ⟨s, hs⟩ : ∃ s, decodeAsset pad sc a = .ok s := by
          cases hd : decodeAsset pad sc a with
          | ok s => exact ⟨s, rfl⟩
          | error e => rw [hd] at ha; exact Bool.noConfusion ha
        obtain ⟨sprites, hcol, hfa⟩ := ih (fun x hx => hall x (List.mem_cons_of_mem a hx))
        refine ⟨s :: sprites, ?_, List.Forall₂.cons hs hfa⟩
        simp only [decodeList, List.map_cons, hs, collectResults]
        rw [show decodeList pad sc rest = rest.map (decodeAsset pad sc) from rfl] at hcol
        rw [hcol]
    obtain ⟨sprites, hcol, hfa⟩ := this assets hall
    exact ⟨sprites, by simp only [readAssetStream, hcol], hfa⟩
  case firstErr =>
    intro pre bad post e se hpre hbad
    have hcol : collectResults (decodeList pad sc (pre ++ bad :: post)) = .error e := by
      induction pre with
      | nil =>
        simp only [List.nil_append, decodeList, List.map_cons, collectResults, hbad]
      | cons a rest ih =>
        have ha := hpre a (List.mem_cons_self a rest)
        obtain ⟨s, hs⟩ : ∃ s, decodeAsset pad sc a = .ok s := by
          cases hd : decodeAsset pad sc a with
          | ok s => exact ⟨s, rfl⟩
          | error e2 => rw [hd] at ha; exact Bool.noConfusion ha
        have ih2 := ih (fun x hx => hpre x (List.mem_cons_of_mem a hx))
        simp only [List.cons_append, decodeList, List.map_cons, collectResults, hs]
        rw [show decodeList pad sc (rest ++ bad :: post)
          = (rest ++ bad :: post).map (decodeAsset pad sc) from rfl] at ih2
        rw [ih2]
    simp only [readAssetStream, hcol]
  case tagged =>
    intro a e h
    cases hr : a.reader with
    | error er =>
      simp only [decodeAsset, hr] at h
      exact ⟨er, Or.inl (Except.error.inj h).symm⟩
    | ok img =>
      cases hc : img.config with
      | error ec =>
        simp only [decodeAsset, hr, hc] at h
        exact ⟨ec, Or.inr (Except.error.inj h).symm⟩
      | ok cfg =>
        simp only [decodeAsset, hr, hc] at h
        cases h
  case append =>
    intro xs ys
    simp [decodeList]
  case length =>
    intro assets
    simp [decodeList]

/-- C6 witness: with a failing second asset, the pipeline reports exactly
that asset's tagged error; the first asset decoded fine and the third is
behind the failure. -/
theorem decode_pipeline_first_error_witness :
    readAssetStream 0 1 ([⟨"g", .ok ⟨.ok ⟨2, 2⟩⟩⟩] ++ ⟨"b", .error "boom"⟩ ::
        [⟨"G", .ok ⟨.ok ⟨3, 3⟩⟩⟩]) none
      = .error "Failed to read asset 'b': boom" :=
  (decode_pipeline_first_error 0 1).2.1 [⟨"g", .ok ⟨.ok ⟨2, 2⟩⟩⟩] ⟨"b", .error "boom"⟩
    [⟨"G", .ok ⟨.ok ⟨3, 3⟩⟩⟩] "Failed to read asset 'b': boom" none
    (by decide) (by decide)

/-- C8: every zero-valued optional field is filled with its default — name
"atlas", 2048×2048, scale 1, the "name-index" naming function — while every
explicitly set non-zero value is kept; `MaxAtlases` is passed through
unchanged and a zero value imposes no limit (the run can never fail with
the atlas-limit error). -/
theorem params_defaults (p : Params) :
    (p.name = "" → (applySensibleDefaults p).name = "atlas") ∧
    (p.name ≠ "" → (applySensibleDefaults p).name = p.name) ∧
    (p.width = 0 → (applySensibleDefaults p).width = 2048) ∧
    (p.width ≠ 0 → (applySensibleDefaults p).width = p.width) ∧
    (p.height = 0 → (applySensibleDefaults p).height = 2048) ∧
    (p.height ≠ 0 → (applySensibleDefaults p).height = p.height) ∧
    (p.scale = 0 → (applySensibleDefaults p).scale = 1) ∧
    (p.scale ≠ 0 → (applySensibleDefaults p).scale = p.scale) ∧
    (p.nameFormatter = none →
      (applySensibleDefaults p).nameFormatter = some DefaultNameFormatter) ∧
    (∀ f, p.nameFormatter = some f → (applySensibleDefaults p).nameFormatter = some f) ∧
    (applySensibleDefaults p).maxAtlases = p.maxAtlases ∧
    (∀ (n : String) (i : Int), DefaultNameFormatter n i = n ++ "-" ++ toString i) ∧
    (p.maxAtlases = 0 → ∀ (fuel : Nat) (sprites0 : List Sprite) (n : Int),
      (RunParams p fuel sprites0).2 ≠ .err (.atlasLimit n)) := by
  refine ⟨?_, ?_, ?_, ?_, ?_, ?_, ?_, ?_, ?_, ?_, ?_, ?_, ?_⟩
  · intro h
    simp [applySensibleDefaults, h, DefaultAtlasName]
  · intro h
    simp [applySensibleDefaults, h]
  · intro h
    simp [applySensibleDefaults, h, DefaultAtlasWidth]
  · intro h
    simp [applySensibleDefaults, h]
  · intro h
    simp [applySensibleDefaults, h, DefaultAtlasHeight]
  · intro h
    simp [applySensibleDefaults, h]
  · intro h
    simp [applySensibleDefaults, h]
  · intro h
    simp [applySensibleDefaults, h]
  · intro h
    simp [applySensibleDefaults, h]
  · intro f h
    simp [applySensibleDefaults, h]
  · simp [applySensibleDefaults]
  · intro n i
    rfl
  · intro h fuel sprites0 n
    rw [RunParams, run_snd]
    apply runLoop_no_limit
    have : ((applySensibleDefaults p).toRP).maxAtlases = p.maxAtlases := by
      simp [Params.toRP, applySensibleDefaults]
    rw [this, h]
    exact lt_irrefl 0

/-- C8 witness: a fully zero-valued `Params` gets every default, and a
non-zero name survives. -/
theorem params_defaults_witness :
    (applySensibleDefaults ⟨"", 0, 0, 0, 0, 0, false, none, "lua"⟩).name = "atlas" ∧
    (applySensibleDefaults ⟨"", 0, 0, 0, 0, 0, false, none, "lua"⟩).width = 2048 ∧
    (applySensibleDefaults ⟨"", 0, 0, 0, 0, 0, false, none, "lua"⟩).height = 2048 ∧
    (applySensibleDefaults ⟨"", 0, 0, 0, 0, 0, false, none, "lua"⟩).scale = 1 ∧
    (applySensibleDefaults ⟨"", 0, 0, 0, 0, 0, false, none, "lua"⟩).nameFormatter
      = some DefaultNameFormatter ∧
    DefaultNameFormatter "atlas" 1 = "atlas-1" ∧
    (applySensibleDefaults ⟨"myatlas", 1024, 512, 0, 3, mkRat 2 1, false, none, "lua"⟩).name
      = "myatlas" := by
  obtain ⟨h1, -, h3, -, h5, -, h7, -, h9, -⟩ :=
    params_defaults ⟨"", 0, 0, 0, 0, 0, false, none, "lua"⟩
  obtain ⟨-, h2b, -⟩ := params_defaults ⟨"myatlas", 1024, 512, 0, 3, mkRat 2 1, false, none, "lua"⟩
  exact ⟨h1 rfl, h3 rfl, h5 rfl, h7 rfl, h9 rfl, by decide, h2b (by decide)⟩

/-- C7: every atlas the pack loop produces is named by the naming function
at its (1-based) atlas index; its image file is that stem followed by
".png"; its descriptor file is its stem followed by "." and the format's
extension, except that with descriptor combining enabled the descriptor
stem is the run's base name while the image keeps the per-atlas stem. -/
theorem atlas_file_naming (p : RP) (total : Nat) :
    ∀ (fuel : Nat) (sprites : List Sprite) (count : Int) (i : Nat) (a : Atlas),
    (runLoop p total fuel sprites count).atlases.get? i = some a →
    a.name = p.nameFormatter p.name (count + (i : Int) + 1) ∧
    a.imageFilename = a.name ++ ".png" ∧
    a.descFilename = (if p.combineDescFiles then p.name else a.name) ++ "." ++ p.ext := by
  intro fuel
  induction fuel with
  | zero =>
    intro sprites count i a h
    simp [runLoop] at h
  | succ f ih =>
    intro sprites count i a
    simp only [runLoop]
    split
    · intro h
      simp at h
    · split
      · intro h
        simp at h
      · split
        · intro h
          cases i with
          | zero =>
            simp only [List.get?_cons_zero, Option.some.injEq] at h
            subst h
            simp [append_dot]
          | succ j =>
            simp only [List.get?_cons_succ, List.get?_nil] at h
            cases h
        · split
          · intro h
            cases i with
            | zero =>
              simp only [List.get?_cons_zero, Option.some.injEq] at h
              subst h
              simp [append_dot]
            | succ j =>
              simp only [List.get?_cons_succ, List.get?_nil] at h
              cases h
          · intro h
            cases i with
            | zero =>
              simp only [List.get?_cons_zero, Option.some.injEq] at h
              subst h
              simp [append_dot]
            | succ j =>
              simp only [List.get?_cons_succ] at h
              have hrec := ih _ (count + 1) j a h
              refine ⟨?_, hrec.2.1, hrec.2.2⟩
              rw [hrec.1]
              congr 1
              push_cast
              ring

/-- C7 witness: the single atlas of a one-sprite run is named "atlas-1",
its image file is "atlas-1.png" and its descriptor file "atlas-1.lua". -/
theorem atlas_file_naming_witness :
    (mkAtlas p10 1 [⟨⟨"a", 2, 2, 0⟩, 0, 0⟩]).name
        = p10.nameFormatter p10.name (0 + ((0 : Nat) : Int) + 1) ∧
    (mkAtlas p10 1 [⟨⟨"a", 2, 2, 0⟩, 0, 0⟩]).imageFilename
        = (mkAtlas p10 1 [⟨⟨"a", 2, 2, 0⟩, 0, 0⟩]).name ++ ".png" ∧
    (mkAtlas p10 1 [⟨⟨"a", 2, 2, 0⟩, 0, 0⟩]).descFilename
        = (if p10.combineDescFiles then p10.name
            else (mkAtlas p10 1 [⟨⟨"a", 2, 2, 0⟩, 0, 0⟩]).name) ++ "." ++ p10.ext :=
  atlas_file_naming p10 1 3 [⟨"a", 2, 2, 0⟩] 0 0 (mkAtlas p10 1 [⟨⟨"a", 2, 2, 0⟩, 0, 0⟩])
    (by decide)

/-- C9: on a normally completing run with descriptor combining enabled, the
dispatched tasks are the per-atlas image tasks in creation order followed by
exactly one combined-descriptor task (so it is dispatched after every
packing pass has completed and is the last task); that task processes the
atlases in creation order, writing the first in create mode (flag false)
and every later one in append mode (flag true). -/
theorem combined_descriptor_task (p : RP) (fuel : Nat) (sprites0 : List Sprite)
    (hc : p.combineDescFiles = true)
    (hok : (run p fuel sprites0).2 = .ok) :
    (run p fuel sprites0).1 =
      ((runLoop p (sortByArea sprites0).length fuel (sortByArea sprites0) 0).atlases.map
          OutEvent.image)
        ++ [OutEvent.combinedDesc (combinedItems
              (runLoop p (sortByArea sprites0).length fuel (sortByArea sprites0) 0).atlases)] ∧
    ((run p fuel sprites0).1.filter OutEvent.isCombined).length = 1 ∧
    (combinedItems
        (runLoop p (sortByArea sprites0).length fuel (sortByArea sprites0) 0).atlases).map
        Prod.fst
      = (runLoop p (sortByArea sprites0).length fuel (sortByArea sprites0) 0).atlases ∧
    (combinedItems
        (runLoop p (sortByArea sprites0).length fuel (sortByArea sprites0) 0).atlases).map
        Prod.snd
      = (List.range
          (runLoop p (sortByArea sprites0).length fuel (sortByArea sprites0) 0).atlases.length).map
          (fun i => decide (0 < i)) := by
  have hloopok : (runLoop p (sortByArea sprites0).length fuel (sortByArea sprites0) 0).outcome
      = .ok := by
    rw [run_snd] at hok
    exact hok
  have hpos := runLoop_ok_pos _ _ _ _ _ hloopok
  have hfun : mkEvent p = OutEvent.image := by
    funext a
    simp [mkEvent, hc]
  have hev : (runLoop p (sortByArea sprites0).length fuel (sortByArea sprites0) 0).events
      = (runLoop p (sortByArea sprites0).length fuel (sortByArea sprites0) 0).atlases.map
          OutEvent.image := by
    rw [runLoop_events, hfun]
  have hrun1 : (run p fuel sprites0).1 =
      ((runLoop p (sortByArea sprites0).length fuel (sortByArea sprites0) 0).atlases.map
          OutEvent.image)
        ++ [OutEvent.combinedDesc (combinedItems
              (runLoop p (sortByArea sprites0).length fuel (sortByArea sprites0) 0).atlases)] := by
    simp only [run]
    split
    · rw [if_pos ⟨hc, hpos⟩]
      simp [hev]
    · rename_i oc hoc
      exact absurd hloopok hoc
  refine ⟨hrun1, ?_, combinedItems_fst _, combinedItems_snd _⟩
  rw [hrun1]
  simp [List.filter_append, List.filter_map, OutEvent.isCombined, Function.comp]

/-- C9 witness: two 4×4 sprites on a 4×4 canvas with combining enabled —
two image tasks then one combined task with flags [false, true]. -/
theorem combined_descriptor_task_witness :
    (run p4c 9 [⟨"t1", 4, 4, 0⟩, ⟨"t2", 4, 4, 0⟩]).1 =
      ((runLoop p4c (sortByArea [⟨"t1", 4, 4, 0⟩, ⟨"t2", 4, 4, 0⟩]).length 9
          (sortByArea [⟨"t1", 4, 4, 0⟩, ⟨"t2", 4, 4, 0⟩]) 0).atlases.map OutEvent.image)
        ++ [OutEvent.combinedDesc (combinedItems
              (runLoop p4c (sortByArea [⟨"t1", 4, 4, 0⟩, ⟨"t2", 4, 4, 0⟩]).length 9
                (sortByArea [⟨"t1", 4, 4, 0⟩, ⟨"t2", 4, 4, 0⟩]) 0).atlases)] ∧
    ((run p4c 9 [⟨"t1", 4, 4, 0⟩, ⟨"t2", 4, 4, 0⟩]).1.filter OutEvent.isCombined).length = 1 ∧
    (combinedItems
        (runLoop p4c (sortByArea [⟨"t1", 4, 4, 0⟩, ⟨"t2", 4, 4, 0⟩]).length 9
          (sortByArea [⟨"t1", 4, 4, 0⟩, ⟨"t2", 4, 4, 0⟩]) 0).atlases).map Prod.fst
      = (runLoop p4c (sortByArea [⟨"t1", 4, 4, 0⟩, ⟨"t2", 4, 4, 0⟩]).length 9
          (sortByArea [⟨"t1", 4, 4, 0⟩, ⟨"t2", 4, 4, 0⟩]) 0).atlases ∧
    (combinedItems
        (runLoop p4c (sortByArea [⟨"t1", 4, 4, 0⟩, ⟨"t2", 4, 4, 0⟩]).length 9
          (sortByArea [⟨"t1", 4, 4, 0⟩, ⟨"t2", 4, 4, 0⟩]) 0).atlases).map Prod.snd
      = (List.range
          (runLoop p4c (sortByArea [⟨"t1", 4, 4, 0⟩, ⟨"t2", 4, 4, 0⟩]).length 9
            (sortByArea [⟨"t1", 4, 4, 0⟩, ⟨"t2", 4, 4, 0⟩]) 0).atlases.length).map
          (fun i => decide (0 < i)) :=
  combined_descriptor_task p4c 9 [⟨"t1", 4, 4, 0⟩, ⟨"t2", 4, 4, 0⟩] rfl (by decide)

/-- C2 counterexample: the claim says any two arrival orders of the same
asset set produce identical atlases and positions. Two assets decoding to
sprites of equal area (2×3 and 3×2) but different shape: whichever arrives
first is sorted first (the area sort cannot separate them) and is placed at
the origin, so the two orders give different sprite positions. -/
theorem run_order_dependent_cex :
    List.Perm [(⟨"s1", .ok ⟨.ok ⟨2, 3⟩⟩⟩ : Asset), ⟨"s2", .ok ⟨.ok ⟨3, 2⟩⟩⟩]
      [⟨"s2", .ok ⟨.ok ⟨3, 2⟩⟩⟩, ⟨"s1", .ok ⟨.ok ⟨2, 3⟩⟩⟩] ∧
    RunFull p10 0 5 [⟨"s1", .ok ⟨.ok ⟨2, 3⟩⟩⟩, ⟨"s2", .ok ⟨.ok ⟨3, 2⟩⟩⟩] none ≠
      RunFull p10 0 5 [⟨"s2", .ok ⟨.ok ⟨3, 2⟩⟩⟩, ⟨"s1", .ok ⟨.ok ⟨2, 3⟩⟩⟩] none := by
  constructor
  · decide
  · decide

/-- C2 amended: with the canonical sort preceding packing, two runs over
permuted sprite lists produce identical results whenever no two sprites
share the same (padded) bounding-box area — on area ties the sort is not
canonical and the outcome can depend on arrival order. -/
theorem run_order_independent_of_distinct_areas (p : RP) (fuel : Nat)
    (l1 l2 : List Sprite) (hperm : List.Perm l1 l2)
    (hnd : (l1.map Sprite.area).Nodup) :
    run p fuel l1 = run p fuel l2 := by
  have hs : sortByArea l1 = sortByArea l2 := sortByArea_eq_of_perm hperm hnd
  simp only [run, hs]

/-- C2 amended witness: two sprites of distinct areas give the same run
result in either arrival order. -/
theorem run_order_independent_witness :
    run p10 5 [⟨"a", 1, 1, 0⟩, ⟨"b", 2, 2, 0⟩]
      = run p10 5 [⟨"b", 2, 2, 0⟩, ⟨"a", 1, 1, 0⟩] :=
  run_order_independent_of_distinct_areas p10 5 _ _ (by decide) (by decide)

/-- C4: with no positive atlas limit the loop never fails with the
atlas-limit error; with a limit N > 0, a run whose unlimited execution
completes within N atlases runs identically (completing in exactly N
atlases succeeds), and one whose unlimited execution needs more than N
atlases dispatches exactly the first N atlases and then fails with the
atlas-limit error — at the point the limit would be exceeded, not before. -/
theorem maxAtlases_limit_behavior (p : RP) (N : Int) (total : Nat) (fuel : Nat)
    (sprites : List Sprite) (hN : 0 < N) :
    (¬ 0 < p.maxAtlases → ∀ n : Int,
      (runLoop p total fuel sprites 0).outcome ≠ .err (.atlasLimit n)) ∧
    ((runLoop { p with maxAtlases := 0 } total fuel sprites 0).outcome = .ok →
      (((runLoop { p with maxAtlases := 0 } total fuel sprites 0).atlases.length : Int) ≤ N →
        runLoop { p with maxAtlases := N } total fuel sprites 0 =
          runLoop { p with maxAtlases := 0 } total fuel sprites 0) ∧
      (N < ((runLoop { p with maxAtlases := 0 } total fuel sprites 0).atlases.length : Int) →
        runLoop { p with maxAtlases := N } total fuel sprites 0 =
          ⟨(runLoop { p with maxAtlases := 0 } total fuel sprites 0).atlases.take N.toNat,
           (runLoop { p with maxAtlases := 0 } total fuel sprites 0).events.take N.toNat,
           .err (.atlasLimit N)⟩)) := by
  refine ⟨fun h n => runLoop_no_limit p total h fuel sprites 0 n,
    fun hok => ⟨fun hle => ?_, fun hgt => ?_⟩⟩
  · exact runLoop_limited_eq p N total fuel sprites 0 hok (by omega)
  · have h := runLoop_limited_take p N total hN fuel sprites 0 hok (by omega) (by omega)
    simpa using h

/-- C4 witness: two 4×4 sprites on a 4×4 canvas need two atlases. With
MaxAtlases = 2 the limited run equals the unlimited one (success in exactly
N atlases); with MaxAtlases = 1 it dispatches the first atlas and fails
with the atlas-limit error. -/
theorem maxAtlases_limit_witness :
    runLoop { p4 with maxAtlases := 2 } 2 9 [⟨"t1", 4, 4, 0⟩, ⟨"t2", 4, 4, 0⟩] 0 =
      runLoop { p4 with maxAtlases := 0 } 2 9 [⟨"t1", 4, 4, 0⟩, ⟨"t2", 4, 4, 0⟩] 0 ∧
    runLoop { p4 with maxAtlases := 1 } 2 9 [⟨"t1", 4, 4, 0⟩, ⟨"t2", 4, 4, 0⟩] 0 =
      ⟨(runLoop { p4 with maxAtlases := 0 } 2 9
          [⟨"t1", 4, 4, 0⟩, ⟨"t2", 4, 4, 0⟩] 0).atlases.take (1 : Int).toNat,
       (runLoop { p4 with maxAtlases := 0 } 2 9
          [⟨"t1", 4, 4, 0⟩, ⟨"t2", 4, 4, 0⟩] 0).events.take (1 : Int).toNat,
       .err (.atlasLimit 1)⟩ :=
  ⟨((maxAtlases_limit_behavior p4 2 2 9 [⟨"t1", 4, 4, 0⟩, ⟨"t2", 4, 4, 0⟩]
      (by decide)).2 (by decide)).1 (by decide),
   ((maxAtlases_limit_behavior p4 1 2 9 [⟨"t1", 4, 4, 0⟩, ⟨"t2", 4, 4, 0⟩]
      (by decide)).2 (by decide)).2 (by decide)⟩

end Lovepac
